import Mathlib

/-
Verification of the ETL-Automation repository control layer.

The repository ships the React control panel
(src/frontend/src/components/PipelineControl.jsx).  The backend pipeline
(state machine, scheduler, deduplicator) is documented in the spec but its
code is not present; those parts are modelled from the spec and marked so.
-/

/-- A log entry as built by addLog in PipelineControl.jsx:
message, type tag, and a timestamp string. -/
structure LogEntry where
  message : String
  type : String
  timestamp : String
deriving DecidableEq, Repr

/-- The configuration state of PipelineControl.jsx (useState initializer at
lines 9-14).  pages is a JS number that parseInt may turn into NaN; NaN is
embedded as Option.none. -/
structure Config where
  asins : String
  pages : Option Int
  headless : Bool
  mining : Bool
deriving DecidableEq, Repr

/-- The component state of PipelineControl: isRunning, logs, config. -/
structure ControlState where
  isRunning : Bool
  logs : List LogEntry
  config : Config
deriving DecidableEq, Repr

/-- Initial config from the useState initializer. -/
def initialConfig : Config :=
  { asins := "B0CX59H5W7,B0FHB5V36G"
  , pages := some 2
  , headless := true
  , mining := true }

/-- Initial component state: isRunning false, empty logs, initialConfig. -/
def initState : ControlState :=
  { isRunning := false, logs := [], config := initialConfig }

/-- addLog from PipelineControl.jsx line 53-55:
setLogs(prev st [...prev, entry].slice(-50)).  slice(-50) keeps the last 50
elements, embedded as dropping length - 50 from the front. -/
def addLog (prev : List LogEntry) (message ty ts : String) : List LogEntry :=
  let l := prev ++ [⟨message, ty, ts⟩]
  l.drop (l.length - 50)

theorem addLog_def (prev : List LogEntry) (m ty ts : String) :
    addLog prev m ty ts =
      (prev ++ [(⟨m, ty, ts⟩ : LogEntry)]).drop (prev.length + 1 - 50) := by
  simp [addLog]

theorem addLog_length_le (prev : List LogEntry) (m ty ts : String) :
    (addLog prev m ty ts).length ≤ 50 := by
  simp only [addLog, List.length_drop, List.length_append, List.length_cons,
    List.length_nil]
  omega

theorem addLog_getLast (prev : List LogEntry) (m ty ts : String) :
    (addLog prev m ty ts).getLast? = some (⟨m, ty, ts⟩ : LogEntry) := by
  rw [addLog_def]
  rw [List.drop_append_of_le_length (by omega)]
  exact List.getLast?_concat _

theorem addLog_small (prev : List LogEntry) (m ty ts : String)
    (h : prev.length < 50) : addLog prev m ty ts = prev ++ [(⟨m, ty, ts⟩ : LogEntry)] := by
  rw [addLog_def]
  have : prev.length + 1 - 50 = 0 := by omega
  rw [this, List.drop_zero]

theorem addLog_full (prev : List LogEntry) (m ty ts : String)
    (h : prev.length = 50) :
    addLog prev m ty ts = prev.drop 1 ++ [(⟨m, ty, ts⟩ : LogEntry)] := by
  rw [addLog_def]
  have : prev.length + 1 - 50 = 1 := by omega
  rw [this, List.drop_append_of_le_length (by omega)]

/-- C4: the execution log is a bounded ring of capacity 50: every addLog call
appends exactly one entry at the end (the new entry is always the last one),
the result never exceeds 50 entries, below capacity the call is a plain
append, and exactly at capacity the oldest entry is dropped while the order
of the remaining entries is preserved. -/
theorem C4_log_ring_capacity_50 (prev : List LogEntry) (m ty ts : String) :
    (addLog prev m ty ts).length ≤ 50
    ∧ (addLog prev m ty ts).getLast? = some (⟨m, ty, ts⟩ : LogEntry)
    ∧ (prev.length < 50 → addLog prev m ty ts = prev ++ [(⟨m, ty, ts⟩ : LogEntry)])
    ∧ (prev.length = 50 → addLog prev m ty ts = prev.drop 1 ++ [(⟨m, ty, ts⟩ : LogEntry)]) :=
  ⟨addLog_length_le prev m ty ts, addLog_getLast prev m ty ts,
   addLog_small prev m ty ts, addLog_full prev m ty ts⟩

/-- Witness for C4 at concrete inputs: one below capacity, one at capacity. -/
theorem C4_log_ring_capacity_50_witness :
    (([] : List LogEntry).length < 50
      ∧ addLog [] "m" "info" "t" = [(⟨"m", "info", "t"⟩ : LogEntry)])
    ∧ ((List.replicate 50 (⟨"x", "info", "s"⟩ : LogEntry)).length = 50
      ∧ addLog (List.replicate 50 ⟨"x", "info", "s"⟩) "m" "info" "t"
          = (List.replicate 50 (⟨"x", "info", "s"⟩ : LogEntry)).drop 1
              ++ [(⟨"m", "info", "t"⟩ : LogEntry)]) :=
  ⟨⟨by decide,
    (C4_log_ring_capacity_50 [] "m" "info" "t").2.2.1 (by decide)⟩,
   ⟨by simp,
    (C4_log_ring_capacity_50 (List.replicate 50 ⟨"x", "info", "s"⟩)
        "m" "info" "t").2.2.2 (by simp)⟩⟩

/-- The object resolved by api.getStatus() as consumed by PipelineControl:
a status string and a message string (the component reads status.status and
status.message). -/
structure ApiStatus where
  status : String
  message : String
deriving DecidableEq, Repr

/-- Backend calls the component can issue through the api service. -/
inductive ApiCall where
  | getStatus
  | startPipeline (cfg : Config)
  | stopPipeline
deriving DecidableEq, Repr

/-- checkStatus from PipelineControl.jsx lines 18-26.  The resolved api value
is passed in (none embeds a falsy response, skipped by the if (status)
guard); the ambient timestamp is passed as ts.  A truthy nonempty message
different from Ready is appended to the log, tagged info when the polled
status string is running and success otherwise; isRunning is set to whether
the status string equals running. -/
def checkStatus (s : ControlState) (resp : Option ApiStatus) (ts : String) :
    ControlState :=
  match resp with
  | none => s
  | some st =>
    let s1 := { s with isRunning := st.status == "running" }
    let tag := if st.status == "running" then "info" else "success"
    if st.message ≠ "" ∧ st.message ≠ "Ready" then
      { s1 with logs := addLog s1.logs st.message tag ts }
    else s1

/-- Poll period of the status interval (setInterval(checkStatus, 2000)). -/
def pollIntervalMs : Nat := 2000

/-- handleStart from PipelineControl.jsx lines 32-41.  ok embeds whether the
awaited api.startPipeline(config) call resolved or threw; on success the
component optimistically sets isRunning and logs success, on failure the
catch block logs a warning and leaves isRunning untouched.  The issued api
call is returned alongside the new state. -/
def handleStart (s : ControlState) (ok : Bool) (ts : String) :
    ControlState × List ApiCall :=
  let s1 := { s with logs := addLog s.logs "Initiating pipeline start..." "info" ts }
  if ok then
    let s2 := { s1 with isRunning := true }
    ({ s2 with logs := addLog s2.logs "Pipeline started successfully" "success" ts },
     [ApiCall.startPipeline s.config])
  else
    ({ s1 with logs := addLog s1.logs "Failed to start pipeline" "warning" ts },
     [ApiCall.startPipeline s.config])

/-- handleStop from PipelineControl.jsx lines 43-51.  On a resolved
api.stopPipeline() the component immediately sets isRunning to false and
logs a warning entry; on a rejected call only the catch warning is logged. -/
def handleStop (s : ControlState) (ok : Bool) (ts : String) :
    ControlState × List ApiCall :=
  if ok then
    ({ s with isRunning := false
            , logs := addLog s.logs "Pipeline stop requested" "warning" ts },
     [ApiCall.stopPipeline])
  else
    ({ s with logs := addLog s.logs "Failed to stop pipeline" "warning" ts },
     [ApiCall.stopPipeline])

/-- The Headless Mode toggle onClick (line 93): spreads config and negates
only headless; no api call is made. -/
def toggleHeadless (s : ControlState) : ControlState × List ApiCall :=
  ({ s with config := { s.config with headless := !s.config.headless } }, [])

/-- The Review Mining toggle onClick (line 103): spreads config and negates
only mining; no api call is made. -/
def toggleMining (s : ControlState) : ControlState × List ApiCall :=
  ({ s with config := { s.config with mining := !s.config.mining } }, [])

/-- JS parseInt(value) with default radix 10 as applied to the text of the
Pages per Product input: leading whitespace skipped, optional sign, then a
leading run of decimal digits; NaN (embedded as none) when no digit is
found. -/
def jsParseInt (sv : String) : Option Int :=
  let cs := sv.toList.dropWhile (fun c => c.isWhitespace)
  let signAndRest : Int × List Char :=
    match cs with
    | '-' :: r => (-1, r)
    | '+' :: r => (1, r)
    | r => (1, r)
  let ds := signAndRest.2.takeWhile (fun c => c.isDigit)
  if ds.isEmpty then none
  else some (signAndRest.1 *
    (ds.foldl (fun acc c => acc * 10 + (c.toNat - '0'.toNat)) 0 : Nat))

/-- The Pages per Product input onChange (line 85): sets config.pages to
parseInt of the raw input value, with no guard against NaN; no api call. -/
def pagesOnChange (s : ControlState) (value : String) :
    ControlState × List ApiCall :=
  ({ s with config := { s.config with pages := jsParseInt value } }, [])

theorem checkStatus_isRunning (s : ControlState) (st : ApiStatus) (ts : String) :
    (checkStatus s (some st) ts).isRunning = (st.status == "running") := by
  simp only [checkStatus]
  split <;> rfl

/-- Modelled from the spec: the PipelineStateMachine states of section 4.9
(the backend pipeline code is not present in the repository). -/
inductive PipelineState where
  | Idle
  | Running
  | Stopping
  | Error
  | Completed
deriving DecidableEq, Repr

/-- Modelled from the spec: the process-wide PipelineRun singleton of the
data model, section 3 (state, current message, start time). -/
structure PipelineRun where
  state : PipelineState
  current_message : String
  started_at : String
deriving DecidableEq, Repr

/-- Modelled from the spec: the failure start(config) raises when the
machine is not Idle. -/
inductive StartError where
  | AlreadyRunning
deriving DecidableEq, Repr

/-- Modelled from the spec: the status() result shape of section 6,
a state and a message string. -/
structure StatusView where
  state : PipelineState
  message : String
deriving DecidableEq, Repr

namespace Pipeline

/-- Modelled from the spec: start(config) fails with AlreadyRunning if not
Idle, otherwise begins a run (Idle to Running). -/
def start (s : PipelineState) : Except StartError PipelineState :=
  match s with
  | PipelineState.Idle => Except.ok PipelineState.Running
  | _ => Except.error StartError.AlreadyRunning

/-- Modelled from the spec: stop() is a no-op unless Running, in which case
it moves the machine to Stopping. -/
def stop (s : PipelineState) : PipelineState :=
  match s with
  | PipelineState.Running => PipelineState.Stopping
  | s => s

/-- Modelled from the spec: the scheduler observes a pending stop at the
next attempt boundary and finishes gracefully, retiring Stopping to Idle;
Completed and Error likewise retire to Idle, and an ongoing Running run
continues. -/
def attemptBoundary (s : PipelineState) : PipelineState :=
  match s with
  | PipelineState.Stopping => PipelineState.Idle
  | PipelineState.Completed => PipelineState.Idle
  | PipelineState.Error => PipelineState.Idle
  | s => s

/-- Modelled from the spec: status() returns the current state and message
of the PipelineRun singleton. -/
def status (run : PipelineRun) : StatusView :=
  { state := run.state, message := run.current_message }

end Pipeline

/-- Modelled from the spec: the serialization of a pipeline state on the
wire of the excluded api layer, as consumed by the control component, which
compares the polled status string against the lowercase word running. -/
def wireState : PipelineState → String
  | PipelineState.Idle => "idle"
  | PipelineState.Running => "running"
  | PipelineState.Stopping => "stopping"
  | PipelineState.Error => "error"
  | PipelineState.Completed => "completed"

/-- Modelled from the spec: the RawReview record of the data model,
section 3 (the deduplicator code is not present in the repository). -/
structure RawReview where
  target_identifier : String
  title : String
  rating : Int
  content : String
  date : String
  source_page_index : Nat
deriving DecidableEq, Repr

/-- Modelled from the spec: the normalized content used for fingerprints,
lower-cased with whitespace collapsed to single spaces. -/
def normalizeContent (s : String) : String :=
  String.intercalate " "
    (((s.toLower.split (fun c => c.isWhitespace)).filter (fun w => w ≠ "")))

/-- Modelled from the spec: the dedup fingerprint, normalized content paired
with the rating. -/
def fingerprint (r : RawReview) : String × Int :=
  (normalizeContent r.content, r.rating)

/-- Modelled from the spec: dedupe(batch, seen) returns the unique reviews
in scrape order (first occurrence of a fingerprint wins) together with the
number of removed duplicates; seen is the set of already-known
fingerprints. -/
def dedupe : List RawReview → List (String × Int) → List RawReview × Nat
  | [], _ => ([], 0)
  | r :: rs, seen =>
    if fingerprint r ∈ seen then
      ((dedupe rs seen).1, (dedupe rs seen).2 + 1)
    else
      (r :: (dedupe rs (fingerprint r :: seen)).1,
       (dedupe rs (fingerprint r :: seen)).2)

theorem dedupe_of_fresh_nodup (l : List RawReview) : ∀ seen : List (String × Int),
    (∀ r ∈ l, fingerprint r ∉ seen) → (l.map fingerprint).Nodup →
    dedupe l seen = (l, 0) := by
  induction l with
  | nil => intro seen _ _; rfl
  | cons r rs ih =>
    intro seen hfresh hnd
    have hr : fingerprint r ∉ seen := hfresh r (List.mem_cons_self r rs)
    have hnotin : fingerprint r ∉ rs.map fingerprint := by
      simp only [List.map_cons, List.nodup_cons] at hnd
      exact hnd.1
    have hfresh2 : ∀ x ∈ rs, fingerprint x ∉ fingerprint r :: seen := by
      intro x hx
      simp only [List.mem_cons]
      push_neg
      constructor
      · intro hEq
        exact hnotin (hEq ▸ List.mem_map_of_mem fingerprint hx)
      · exact hfresh x (List.mem_cons_of_mem r hx)
    have hnd2 : (rs.map fingerprint).Nodup := by
      simp only [List.map_cons, List.nodup_cons] at hnd
      exact hnd.2
    simp only [dedupe, if_neg hr, ih (fingerprint r :: seen) hfresh2 hnd2]

theorem dedupe_output_fresh_nodup (l : List RawReview) :
    ∀ seen : List (String × Int),
    ((dedupe l seen).1.map fingerprint).Nodup
    ∧ ∀ r ∈ (dedupe l seen).1, fingerprint r ∉ seen := by
  induction l with
  | nil => intro seen; exact ⟨List.nodup_nil, by intro r h; cases h⟩
  | cons r rs ih =>
    intro seen
    by_cases hmem : fingerprint r ∈ seen
    · simpa only [dedupe, if_pos hmem] using ih seen
    · obtain ⟨hnd, hfr⟩ := ih (fingerprint r :: seen)
      refine ⟨?_, ?_⟩
      · simp only [dedupe, if_neg hmem, List.map_cons, List.nodup_cons]
        refine ⟨?_, hnd⟩
        intro hin
        obtain ⟨x, hx, hEq⟩ := List.mem_map.mp hin
        exact hfr x hx (hEq ▸ List.mem_cons_self _ _)
      · simp only [dedupe, if_neg hmem]
        intro x hx
        rcases List.mem_cons.mp hx with h | h
        · exact h ▸ hmem
        · intro hs
          exact hfr x h (List.mem_cons_of_mem _ hs)

/-- C7: dedupe is idempotent.  For every batch of RawReview, running dedupe
again on the already-deduplicated output removes zero additional reviews
and returns the output unchanged. -/
theorem C7_dedupe_idempotent (batch : List RawReview) :
    dedupe (dedupe batch []).1 [] = ((dedupe batch []).1, 0) := by
  obtain ⟨hnd, _⟩ := dedupe_output_fresh_nodup batch []
  exact dedupe_of_fresh_nodup (dedupe batch []).1 []
    (fun r _ h => (List.not_mem_nil _ h)) hnd

/-- C1 counterexample: immediately after a successful stop request the
control component reports the pipeline as already stopped: handleStop sets
its running indicator to false at once, before any attempt boundary is
reached, refuting the clause that the control surface does not report the
pipeline as already stopped upon acceptance of the stop request. -/
theorem C1_counterexample_optimistic_stop :
    (handleStop { initState with isRunning := true } true "t").1.isRunning
      = false := rfl

/-- C1 amended: issuing stop() while Running moves the spec-modelled state
machine to Stopping, the machine reaches Idle from a stop request only via
the attempt boundary (stop itself never yields Idle except when already
Idle), and the scheduler retires Stopping to Idle at the next attempt
boundary; the control component, however, optimistically reports the
pipeline as not running immediately once the stop request succeeds. -/
theorem C1_stop_semantics_amended :
    Pipeline.stop PipelineState.Running = PipelineState.Stopping
    ∧ (∀ st : PipelineState,
        Pipeline.stop st = PipelineState.Idle ↔ st = PipelineState.Idle)
    ∧ Pipeline.attemptBoundary PipelineState.Stopping = PipelineState.Idle
    ∧ (∀ (s : ControlState) (ts : String),
        (handleStop s true ts).1.isRunning = false) := by
  refine ⟨rfl, ?_, rfl, ?_⟩
  · intro st; cases st <;> simp [Pipeline.stop]
  · intro s ts; rfl

/-- C2: status() always returns a state drawn from the five pipeline states
together with the current message string, and the control component marks
itself running exactly when the polled state is Running (serialized on the
wire as the lowercase word running). -/
theorem C2_status_shape_and_indicator :
    (∀ run : PipelineRun,
      (Pipeline.status run).state = PipelineState.Idle
      ∨ (Pipeline.status run).state = PipelineState.Running
      ∨ (Pipeline.status run).state = PipelineState.Stopping
      ∨ (Pipeline.status run).state = PipelineState.Error
      ∨ (Pipeline.status run).state = PipelineState.Completed)
    ∧ (∀ run : PipelineRun, (Pipeline.status run).message = run.current_message)
    ∧ (∀ (s : ControlState) (ps : PipelineState) (m ts : String),
        ((checkStatus s (some ⟨wireState ps, m⟩) ts).isRunning = true
          ↔ ps = PipelineState.Running)) := by
  refine ⟨?_, fun run => rfl, ?_⟩
  · intro run
    obtain ⟨st, msg, ta⟩ := run
    cases st <;> simp [Pipeline.status]
  · intro s ps m ts
    rw [checkStatus_isRunning]
    cases ps <;> simp [wireState]

/-- C3: start while a run is in progress fails with AlreadyRunning on the
spec-modelled machine (beginning no second run), and on a failed start the
control component leaves its running indicator untouched and records the
failure as a warning log entry instead of an uncaught exception. -/
theorem C3_start_already_running :
    Pipeline.start PipelineState.Running
      = Except.error StartError.AlreadyRunning
    ∧ (∀ (s : ControlState) (ts : String),
        (handleStart s false ts).1.isRunning = s.isRunning
        ∧ (handleStart s false ts).1.logs.getLast?
            = some (⟨"Failed to start pipeline", "warning", ts⟩ : LogEntry)) := by
  refine ⟨rfl, ?_⟩
  intro s ts
  refine ⟨rfl, ?_⟩
  have h : (handleStart s false ts).1.logs
      = addLog (addLog s.logs "Initiating pipeline start..." "info" ts)
          "Failed to start pipeline" "warning" ts := rfl
  rw [h, addLog_getLast]

/-- C5 counterexample: a status poll whose returned message is Ready is
filtered out by checkStatus and never appended to the run log, refuting the
claim that every polled message is appended. -/
theorem C5_counterexample_ready_filtered :
    (checkStatus initState (some ⟨"idle", "Ready"⟩) "t").logs = []
    ∧ "Ready" ≠ "" := by
  constructor
  · rfl
  · decide

/-- C5 amended: every status poll whose message is nonempty and different
from Ready has that message appended to the run log, tagged info while the
polled status string is running and success otherwise. -/
theorem C5_amended_poll_message_logged (s : ControlState) (st : ApiStatus)
    (ts : String) (h1 : st.message ≠ "") (h2 : st.message ≠ "Ready") :
    (checkStatus s (some st) ts).logs
      = addLog s.logs st.message
          (if st.status == "running" then "info" else "success") ts := by
  simp only [checkStatus]
  rw [if_pos ⟨h1, h2⟩]

/-- Witness for the amended C5 at a concrete running poll. -/
theorem C5_amended_poll_message_logged_witness :
    ("Scraping page 1" ≠ "" ∧ "Scraping page 1" ≠ "Ready")
    ∧ (checkStatus initState (some ⟨"running", "Scraping page 1"⟩) "t").logs
        = addLog initState.logs "Scraping page 1"
            (if ("running" == "running") then "info" else "success") "t" :=
  ⟨⟨by decide, by decide⟩,
   C5_amended_poll_message_logged initState ⟨"running", "Scraping page 1"⟩ "t"
     (by decide) (by decide)⟩

/-- C6: mining defaults to true: the initial configuration of the control
panel has mining enabled, and a start issued without touching the Review
Mining toggle submits that configuration, with mining still true, to the
backend. -/
theorem C6_mining_default_true :
    initialConfig.mining = true
    ∧ initState.config.mining = true
    ∧ (∀ (ok : Bool) (ts : String),
        (handleStart initState ok ts).2
          = [ApiCall.startPipeline initialConfig]) := by
  refine ⟨rfl, rfl, ?_⟩
  intro ok ts
  cases ok <;> rfl

/-- C8: polls are scheduled every 2000 milliseconds, and every successful
status poll overwrites the running indicator with whether the polled status
string equals running, regardless of any optimistic value previously set by
handleStart or handleStop; a falsy poll result leaves the state unchanged. -/
theorem C8_poll_overwrites_indicator :
    pollIntervalMs = 2000
    ∧ (∀ (s : ControlState) (st : ApiStatus) (ts : String),
        (checkStatus s (some st) ts).isRunning = (st.status == "running"))
    ∧ (∀ (s : ControlState) (ts : String), checkStatus s none ts = s) :=
  ⟨rfl, checkStatus_isRunning, fun _ _ => rfl⟩

/-- C9: each toggle flips exactly its own boolean configuration field and
leaves every other field of the component state unchanged, and neither
toggle issues any backend call. -/
theorem C9_toggles_frame (s : ControlState) :
    ((toggleHeadless s).1.config.headless = !s.config.headless
      ∧ (toggleHeadless s).1.config.asins = s.config.asins
      ∧ (toggleHeadless s).1.config.pages = s.config.pages
      ∧ (toggleHeadless s).1.config.mining = s.config.mining
      ∧ (toggleHeadless s).1.isRunning = s.isRunning
      ∧ (toggleHeadless s).1.logs = s.logs
      ∧ (toggleHeadless s).2 = [])
    ∧ ((toggleMining s).1.config.mining = !s.config.mining
      ∧ (toggleMining s).1.config.asins = s.config.asins
      ∧ (toggleMining s).1.config.pages = s.config.pages
      ∧ (toggleMining s).1.config.headless = s.config.headless
      ∧ (toggleMining s).1.isRunning = s.isRunning
      ∧ (toggleMining s).1.logs = s.logs
      ∧ (toggleMining s).2 = []) :=
  ⟨⟨rfl, rfl, rfl, rfl, rfl, rfl, rfl⟩, ⟨rfl, rfl, rfl, rfl, rfl, rfl, rfl⟩⟩

/-- C10: clearing the Pages per Product field or entering a non-numeric
value makes config.pages the NaN result of unguarded parseInt (embedded as
none), the change issues no backend call, and a subsequent start submits
that NaN pages value to the backend. -/
theorem C10_pages_nan_submitted :
    jsParseInt "" = none
    ∧ jsParseInt "abc" = none
    ∧ (∀ (s : ControlState) (v : String),
        (pagesOnChange s v).1.config.pages = jsParseInt v
        ∧ (pagesOnChange s v).2 = [])
    ∧ (∀ (s : ControlState) (ok : Bool) (ts : String),
        (handleStart (pagesOnChange s "").1 ok ts).2
          = [ApiCall.startPipeline { s.config with pages := none }]) := by
  refine ⟨rfl, by decide, fun s v => ⟨rfl, rfl⟩, ?_⟩
  intro s ok ts
  cases ok <;> rfl
